import Mathlib

/-!
# Verification of the cosmunet-v2 read-through cache helper and route logic

This file gives a shallow embedding of the read-through cache helper
(`cache.fetch`) and of the route-level logic of the cosmunet-v2 gateway
(cache keys, the `/watch` handler guard, and the tail of
`fetchEpisodeSources`: deduplication, iframe fallback, `download` field),
and proves the specification's claims about them.

The helper itself (`src/utils/cache.ts`) is imported by every route module
but its source is not part of the repository snapshot, so it is modelled
from the specification (§4.1), as marked on each such definition.  The
route modules (`allmanga`, `kickassanime`, `anizone`, `animepahe`,
`animeyy`) are embedded from their sources.
-/

namespace Cosmunet

/-! ## Cache backend model -/

/-- A cache store: a list of entries `(key, value, expiresAt)`.  Models the
Redis keyspace restricted to the keys the helper touches; `expiresAt` is an
absolute time in seconds (write time + TTL), matching Redis `SET key value
EX ttl`. -/
abbrev Store (α : Type) := List (String × α × Nat)

/-- Modelled from the spec: the cache backend handle consumed by
`src/utils/cache.ts` (not in the snapshot).  §6: `get(key) -> value|absent`,
`set(key, value, ttlSeconds) -> ack`.  The `readFails` flag injects a
backend read error (P5 / §7 "Backend unavailable"): when set, every read
throws. -/
structure Backend (α : Type) where
  store : Store α
  readFails : Bool
deriving Repr, DecidableEq

/-- First entry in the store with the given key, if any. -/
def lookupEntry {α : Type} (st : Store α) (key : String) : Option (α × Nat) :=
  match st with
  | [] => none
  | (k, v, e) :: rest => if k = key then some (v, e) else lookupEntry rest key

/-- Outcome of a backend read: a fresh value, a miss (absent or expired),
or a thrown backend error. -/
inductive ReadResult (α : Type) where
  | hit (v : α)
  | miss
  | failed
deriving Repr, DecidableEq

/-- Modelled from the spec: the backend read (§4.1 step 2).  A value is a
hit only if it exists and is not expired (`now < expiresAt`, i.e. strictly
less than `writeTime + ttl` seconds have elapsed).  If the backend is
failing, the read throws. -/
def backendRead {α : Type} (b : Backend α) (key : String) (now : Nat) :
    ReadResult α :=
  if b.readFails then .failed
  else
    match lookupEntry b.store key with
    | some (v, e) => if now < e then .hit v else .miss
    | none => .miss

/-- Modelled from the spec: the backend write (§4.1 step 3, §6 `set`).
Overwrites any previous entry for the key and arms the TTL. -/
def backendWrite {α : Type} (b : Backend α) (key : String) (v : α)
    (ttl now : Nat) : Backend α :=
  { b with store := (key, v, now + ttl) :: b.store.filter (fun p => ¬ p.1 = key) }

/-! ## The read-through cache helper -/

/-- Result of one call to the helper: the value returned to the caller (or
the propagated failure), the backend as left behind by the call, and the
number of times the producer was invoked during the call. -/
structure FetchOut (ε α : Type) where
  result : Except ε α
  backend : Option (Backend α)
  producerCalls : Nat
deriving Repr

/-- Modelled from the spec: `cache.fetch` of `src/utils/cache.ts` (not in
the snapshot), per §4.1.  With no backend it is a pure pass-through for the
producer.  With a backend it reads the key; a fresh value is returned
without invoking the producer; otherwise (absent, expired, or backend read
error — §7/P5 fail-open, the spec's documented reasonable choice) the
producer is invoked once, a successful result is written with the TTL and
returned, and a failure is propagated without writing.  The producer is a
one-shot `Except` value since the helper invokes it at most once. -/
def cacheFetch {ε α : Type} (backend : Option (Backend α)) (key : String)
    (producer : Except ε α) (ttl now : Nat) : FetchOut ε α :=
  match backend with
  | none => ⟨producer, none, 1⟩
  | some b =>
    match backendRead b key now with
    | .hit v => ⟨.ok v, some b, 0⟩
    | _ =>
      match producer with
      | .ok v => ⟨.ok v, some (backendWrite b key v ttl now), 1⟩
      | .error e => ⟨.error e, some b, 1⟩

/-! ## Cache keys built by the route modules

One definition per `cache.fetch` call site.  Interpolated query/path values
(`${episodeId}`, `${query}`, `${page}`, …) are taken as the strings they
interpolate to. -/

/-- Key of the allmanga `/watch` route (both variants of the module). -/
def allmangaWatchKey (episodeId : String) : String :=
  "allmanga:watch:" ++ episodeId

/-- Key of the kickassanime `/:query` search route. -/
def kickassanimeSearchKey (query page : String) : String :=
  "kickassanime:search:" ++ query ++ ":" ++ page

/-- Key of the kickassanime `/info` route. -/
def kickassanimeInfoKey (id : String) : String :=
  "kickassanime:info:" ++ id

/-- Key of the kickassanime `/watch/*` route; `server || 'default'` falls
back to `"default"` when no server was supplied. -/
def kickassanimeWatchKey (episodeId : String) (server : Option String) : String :=
  "kickassanime:watch:" ++ episodeId ++ ":" ++ server.getD "default"

/-- Key of the kickassanime `/servers/*` route. -/
def kickassanimeServersKey (episodeId : String) : String :=
  "kickassanime:servers:" ++ episodeId

/-- Key of the anizone `/:query` search route. -/
def anizoneSearchKey (query : String) : String :=
  "anizone:search:" ++ query

/-- Key of the anizone `/info/:id` route. -/
def anizoneInfoKey (id : String) : String :=
  "anizone:info:" ++ id

/-- Key of the anizone `/watch` route. -/
def anizoneWatchKey (episodeId : String) : String :=
  "anizone:watch:" ++ episodeId

/-- Key of the animepahe `/:query` search route. -/
def animepaheSearchKey (query : String) : String :=
  "animepahe:search:" ++ query

/-- Key of the animepahe `/recent-episodes` route. -/
def animepaheRecentEpisodesKey (page : String) : String :=
  "animepahe:recent-episodes:" ++ page

/-- Key of the animepahe `/info/:id` route. -/
def animepaheInfoKey (id episodePage : String) : String :=
  "animepahe:info:" ++ id ++ ":" ++ episodePage

/-- Key of the animepahe `/watch` route. -/
def animepaheWatchKey (episodeId : String) : String :=
  "animepahe:watch:" ++ episodeId

/-- Key of the animeyy `/watch` route (cached variant of the module). -/
def animeyyWatchKey (episodeId : String) : String :=
  "animeyy:watch:" ++ episodeId

/-- Splits a character list on a separator character; the formalisation of
"colon-separated components" used to state the key-format invariant. -/
def splitOnChar (c : Char) : List Char → List (List Char)
  | [] => [[]]
  | a :: as =>
    if a = c then [] :: splitOnChar c as
    else
      match splitOnChar c as with
      | [] => [[a]]
      | g :: gs => (a :: g) :: gs

/-! ## The `/watch` route handler -/

/-- HTTP body sent by a `/watch` handler: the scraped payload, a plain
message object, or a message-plus-error object from the catch block. -/
inductive RouteBody (α : Type) where
  | payload (v : α)
  | message (msg : String)
  | failure (msg : String) (error : String)
deriving Repr

/-- Observable outcome of one `/watch` request: HTTP status, body, number
of producer (scraper) invocations, and the cache backend as left behind. -/
structure RouteOut (α : Type) where
  status : Nat
  body : RouteBody α
  producerCalls : Nat
  backend : Option (Backend α)
deriving Repr

/-- The allmanga `/watch` handler (identical in both module variants).
Guard: a missing `episodeId` is answered with 400 before any cache or
scraper activity.  Otherwise `redis ? cache.fetch(...) : fetchEpisodeSources(...)`;
a successful result is sent with 200, a thrown error is caught and answered
with 500. -/
def watchHandler {α : Type} (redis : Option (Backend α))
    (episodeId : Option String) (producer : Except String α)
    (ttl now : Nat) : RouteOut α :=
  match episodeId with
  | none => ⟨400, .message "episodeId is required", 0, redis⟩
  | some eid =>
    match redis with
    | some b =>
      let out := cacheFetch (some b) (allmangaWatchKey eid) producer ttl now
      match out.result with
      | .ok v => ⟨200, .payload v, out.producerCalls, out.backend⟩
      | .error e =>
        ⟨500, .failure "Something went wrong. Contact developer for help." e,
          out.producerCalls, out.backend⟩
    | none =>
      match producer with
      | .ok v => ⟨200, .payload v, 1, none⟩
      | .error e =>
        ⟨500, .failure "Something went wrong. Contact developer for help." e,
          1, none⟩

/-- The animeyy `/watch` handler of `src/routes/anime/animeyy.ts` (no cache
in that module): the same guard, then a direct scraper call. -/
def watchHandlerYY {α : Type} (episodeId : Option String)
    (producer : Except String α) : RouteOut α :=
  match episodeId with
  | none => ⟨400, .message "episodeId is required", 0, none⟩
  | some _ =>
    match producer with
    | .ok v => ⟨200, .payload v, 1, none⟩
    | .error e =>
      ⟨500, .failure "Something went wrong. Contact developer for help." e,
        1, none⟩

/-! ## `fetchEpisodeSources`: result building

The scraping front half of `fetchEpisodeSources` (HTTP fetch, cheerio
selectors, regex mining of page and iframe content) accumulates a `sources`
array and an optional `iframeSrc`; those two are taken as inputs here, and
the deterministic tail of the function — deduplication, iframe fallback,
`/embed/` rewrite (animeyy only), and the returned object — is embedded. -/

/-- One element of the `sources` array.  `tag` collects the optional
`source:`/`type:` annotation some push sites add; it does not participate
in deduplication. -/
structure MSource where
  url : String
  quality : String
  isM3U8 : Bool
  tag : Option String
deriving Repr, DecidableEq

/-- One step of building `new Map(sources.map(item => [item.url, item]))`:
a repeated key keeps its original position but takes the new value; a new
key is appended. -/
def insertEntry (m : List (String × MSource)) (k : String) (v : MSource) :
    List (String × MSource) :=
  if m.any (fun p => p.1 = k) then
    m.map (fun p => if p.1 = k then (k, v) else p)
  else m ++ [(k, v)]

/-- `Array.from(new Map(sources.map(item => [item.url, item])).values())`:
one entry per distinct url, in order of first occurrence, each carrying the
last source pushed with that url. -/
def dedupByUrl (sources : List MSource) : List MSource :=
  (sources.foldl (fun m s => insertEntry m s.url s) []).map (fun p => p.2)

/-- Whether `pat` occurs as a contiguous substring — JS `String.includes`. -/
def containsSub (pat : List Char) : List Char → Bool
  | [] => pat.isEmpty
  | a :: as => pat.isPrefixOf (a :: as) || containsSub pat as

/-- Fuel-indexed scan for global substring replacement: at each position,
if the pattern matches, emit the replacement and jump past the match,
otherwise emit the character and advance — JS `replace(/pat/g, rep)` for a
literal pattern.  `fuel = s.length` always suffices. -/
def replaceGo (pat rep : List Char) : Nat → List Char → List Char
  | 0, s => s
  | _ + 1, [] => []
  | fuel + 1, a :: as =>
    if pat.isPrefixOf (a :: as) then
      rep ++ replaceGo pat rep fuel ((a :: as).drop pat.length)
    else a :: replaceGo pat rep fuel as

/-- JS `s.replace(/\/embed\//g, '/anime/')` of the animeyy module. -/
def replaceEmbedAnime (s : String) : String :=
  ⟨replaceGo "/embed/".data "/anime/".data s.data.length s.data⟩

/-- The object returned by `fetchEpisodeSources` (headers omitted: they are
a constant record). -/
structure SourcesResult where
  sources : List MSource
  iframe : Option String
  download : Option String
deriving Repr, DecidableEq

/-- Tail of `fetchEpisodeSources` in the allmanga (axios variant) and
animeyy (cached variant) modules: dedup by url, push the iframe as a
fallback entry only when the deduplicated array is empty, and set
`download` to `uniqueSources.length > 0 ? uniqueSources[0].url : null`. -/
def buildResult (sources : List MSource) (iframeSrc : Option String) :
    SourcesResult :=
  let uniqueSources := dedupByUrl sources
  let uniqueSources : List MSource :=
    match iframeSrc with
    | some src =>
      if uniqueSources.length = 0 then
        uniqueSources ++ [⟨src, "auto", false, some "iframe"⟩]
      else uniqueSources
    | none => uniqueSources
  { sources := uniqueSources
    iframe := iframeSrc
    download :=
      if h : 0 < uniqueSources.length then
        some (uniqueSources.get ⟨0, h⟩).url
      else none }

/-- Tail of `fetchEpisodeSources` in `src/routes/anime/animeyy.ts`: dedup
by url, iframe fallback (with `isM3U8` from `iframeUrl.includes('.m3u8')`),
then the global `/embed/` → `/anime/` rewrite of every source url and of
the iframe url, and `download` from the rewritten array. -/
def buildResultYY (sources : List MSource) (iframeSrc : Option String) :
    SourcesResult :=
  let uniqueSources := dedupByUrl sources
  let uniqueSources : List MSource :=
    match iframeSrc with
    | some src =>
      if uniqueSources.length = 0 then
        uniqueSources ++ [⟨src, "auto", containsSub ".m3u8".data src.data, some "iframe"⟩]
      else uniqueSources
    | none => uniqueSources
  let fixedSources := uniqueSources.map (fun s => { s with url := replaceEmbedAnime s.url })
  { sources := fixedSources
    iframe := iframeSrc.map replaceEmbedAnime
    download :=
      if h : 0 < fixedSources.length then
        some (fixedSources.get ⟨0, h⟩).url
      else none }

/-! ## Helper lemmas -/

/-- Splitting at the first separator: the separator-free prefix becomes the
first component. -/
theorem splitOnChar_sep (c : Char) (xs ys : List Char) (h : c ∉ xs) :
    splitOnChar c (xs ++ c :: ys) = xs :: splitOnChar c ys := by
  induction xs with
  | nil => simp [splitOnChar]
  | cons a as ih =>
    have ha : ¬ a = c := fun hac => h (hac ▸ List.mem_cons_self a as)
    have has : c ∉ as := fun hc => h (List.mem_cons_of_mem a hc)
    simp only [List.cons_append, splitOnChar, if_neg ha, List.append_eq, ih has]

/-- A key of the shape `<provider>:<operation>:<params>` has the provider
as its first colon-separated component and the operation as its second. -/
theorem keyFormat_concat (prov op : String) (suffix : List Char) (key : String)
    (hkey : key.data = prov.data ++ ':' :: (op.data ++ ':' :: suffix))
    (hp : ':' ∉ prov.data) (ho : ':' ∉ op.data) :
    ∃ rest, splitOnChar ':' key.data = prov.data :: op.data :: rest :=
  ⟨splitOnChar ':' suffix, by
    rw [hkey, splitOnChar_sep ':' _ _ hp, splitOnChar_sep ':' _ _ ho]⟩

/-- Invariant of the url-keyed map: keys are pairwise distinct and every
entry's value carries its key as url. -/
def EntriesInv (m : List (String × MSource)) : Prop :=
  (m.map Prod.fst).Nodup ∧ ∀ p ∈ m, p.2.url = p.1

theorem entriesInv_insertEntry (m : List (String × MSource)) (k : String)
    (v : MSource) (hv : v.url = k) (h : EntriesInv m) :
    EntriesInv (insertEntry m k v) := by
  obtain ⟨h1, h2⟩ := h
  unfold insertEntry
  by_cases hmem : m.any (fun p => p.1 = k) = true
  · rw [if_pos hmem]
    constructor
    · have hkeys : (m.map (fun p => if p.1 = k then (k, v) else p)).map Prod.fst
          = m.map Prod.fst := by
        rw [List.map_map]
        apply List.map_congr_left
        intro p _
        by_cases hpk : p.1 = k
        · simp [hpk]
        · simp [hpk]
      rw [hkeys]; exact h1
    · intro p hp
      rw [List.mem_map] at hp
      obtain ⟨q, hq, rfl⟩ := hp
      by_cases hqk : q.1 = k
      · simp [hqk, hv]
      · simpa [hqk] using h2 q hq
  · rw [if_neg hmem]
    have habs : ∀ p ∈ m, ¬ p.1 = k := by
      intro p hp hpk
      exact hmem (List.any_eq_true.mpr ⟨p, hp, by simp [hpk]⟩)
    constructor
    · rw [List.map_append]
      simp only [List.map_cons, List.map_nil]
      rw [List.nodup_append]
      refine ⟨h1, List.nodup_singleton k, ?_⟩
      intro x hx
      rw [List.mem_map] at hx
      obtain ⟨q, hq, rfl⟩ := hx
      simp only [List.mem_singleton]
      exact habs q hq
    · intro p hp
      rcases List.mem_append.mp hp with hin | hin
      · exact h2 p hin
      · rw [List.mem_singleton] at hin
        subst hin
        exact hv

theorem entriesInv_foldl (ss : List MSource) :
    ∀ m, EntriesInv m →
      EntriesInv (ss.foldl (fun m s => insertEntry m s.url s) m) := by
  induction ss with
  | nil => intro m h; exact h
  | cons s ss ih =>
    intro m h
    exact ih _ (entriesInv_insertEntry m s.url s rfl h)

/-- Underlying guarantee of the `Map`-based dedup: the urls of the
deduplicated sources array are pairwise distinct. -/
theorem dedupByUrl_nodup (ss : List MSource) :
    ((dedupByUrl ss).map (fun s => s.url)).Nodup := by
  obtain ⟨h1, h2⟩ := entriesInv_foldl ss [] ⟨List.nodup_nil, by simp⟩
  unfold dedupByUrl
  rw [List.map_map]
  have hurls :
      (ss.foldl (fun m s => insertEntry m s.url s) []).map
        ((fun s => s.url) ∘ Prod.snd)
      = (ss.foldl (fun m s => insertEntry m s.url s) []).map Prod.fst :=
    List.map_congr_left (fun p hp => h2 p hp)
  rw [hurls]; exact h1

/-- `uniqueSources.length > 0 ? uniqueSources[0].url : null` is the url of
the head of the array, when there is one. -/
theorem downloadSpec (l : List MSource) :
    (if h : 0 < l.length then some (l.get ⟨0, h⟩).url else none)
      = l.head?.map (fun s => s.url) := by
  cases l with
  | nil => rfl
  | cons a t => simp

/-- Once a key does not read as a fresh hit, it never does at a later time
(without an intervening write): absence stays absence and an expired entry
stays expired. -/
theorem backendRead_not_hit_later {α : Type} (b : Backend α) (k : String)
    (now₁ now₂ : Nat) (h12 : now₁ ≤ now₂)
    (h : ∀ v, backendRead b k now₁ ≠ ReadResult.hit v) :
    ∀ v, backendRead b k now₂ ≠ ReadResult.hit v := by
  intro v hv
  unfold backendRead at hv h
  by_cases hf : b.readFails
  · simp [hf] at hv
  · simp only [hf, if_false, Bool.false_eq_true] at hv h
    cases hlk : lookupEntry b.store k with
    | none => rw [hlk] at hv; exact ReadResult.noConfusion hv
    | some ve =>
      obtain ⟨v', e⟩ := ve
      rw [hlk] at hv h
      by_cases he : now₁ < e
      · exact h v' (by simp [he])
      · have : ¬ now₂ < e := fun hlt => he (lt_of_le_of_lt h12 hlt)
        simp [this] at hv

/-- A call whose read is not a fresh hit invokes the producer exactly once. -/
theorem cacheFetch_calls_of_not_hit {ε α : Type} (b : Backend α) (k : String)
    (p : Except ε α) (ttl now : Nat)
    (h : ∀ v, backendRead b k now ≠ ReadResult.hit v) :
    (cacheFetch (some b) k p ttl now).producerCalls = 1 := by
  cases hr : backendRead b k now with
  | hit v => exact absurd hr (h v)
  | miss => cases p <;> simp [cacheFetch, hr]
  | failed => cases p <;> simp [cacheFetch, hr]

/-! ## Claims about the cache helper (C1–C6) -/

/-- C1: with a working backend and a cold key, two sequential calls to the
helper with the same key within TTL seconds invoke the producer exactly
once in total, and both calls return the same (deep-equal) value — the
second call is served from the cache without invoking its producer, even
if that producer would now return something else. -/
theorem cache_hit_avoids_reinvocation {ε α : Type} (b : Backend α)
    (k : String) (v : α) (p₂ : Except ε α) (ttl now₁ now₂ : Nat)
    (hb : b.readFails = false)
    (hcold : lookupEntry b.store k = none)
    (hseq : now₁ ≤ now₂) (hfresh : now₂ < now₁ + ttl) :
    (cacheFetch (some b) k (Except.ok (ε := ε) v) ttl now₁).result = Except.ok v ∧
    (cacheFetch
        (cacheFetch (some b) k (Except.ok (ε := ε) v) ttl now₁).backend
        k p₂ ttl now₂).result = Except.ok v ∧
    (cacheFetch (some b) k (Except.ok (ε := ε) v) ttl now₁).producerCalls +
      (cacheFetch
          (cacheFetch (some b) k (Except.ok (ε := ε) v) ttl now₁).backend
          k p₂ ttl now₂).producerCalls = 1 := by
  have hread₁ : backendRead b k now₁ = ReadResult.miss := by
    simp [backendRead, hb, hcold]
  have hout₁ : cacheFetch (some b) k (Except.ok (ε := ε) v) ttl now₁ =
      ⟨Except.ok v, some (backendWrite b k v ttl now₁), 1⟩ := by
    simp [cacheFetch, hread₁]
  have hread₂ : backendRead (backendWrite b k v ttl now₁) k now₂ =
      ReadResult.hit v := by
    simp [backendRead, backendWrite, hb, lookupEntry, hfresh]
  rw [hout₁]
  simp [cacheFetch, hread₂]

/-- Closed instance of `cache_hit_avoids_reinvocation`: the spec's §8
scenario (key `"demo:42"`, TTL 5, first producer `42`, second producer
`99`, calls at times 0 and 1). -/
theorem cache_hit_avoids_reinvocation_witness :
    ((⟨[], false⟩ : Backend Nat).readFails = false ∧
      lookupEntry (⟨[], false⟩ : Backend Nat).store "demo:42" = none ∧
      0 ≤ 1 ∧ 1 < 0 + 5) ∧
    ((cacheFetch (some (⟨[], false⟩ : Backend Nat)) "demo:42"
        (Except.ok (ε := String) 42) 5 0).result = Except.ok 42 ∧
      (cacheFetch
          (cacheFetch (some (⟨[], false⟩ : Backend Nat)) "demo:42"
            (Except.ok (ε := String) 42) 5 0).backend
          "demo:42" (Except.ok (ε := String) 99) 5 1).result = Except.ok 42 ∧
      (cacheFetch (some (⟨[], false⟩ : Backend Nat)) "demo:42"
          (Except.ok (ε := String) 42) 5 0).producerCalls +
        (cacheFetch
            (cacheFetch (some (⟨[], false⟩ : Backend Nat)) "demo:42"
              (Except.ok (ε := String) 42) 5 0).backend
            "demo:42" (Except.ok (ε := String) 99) 5 1).producerCalls = 1) :=
  ⟨⟨rfl, rfl, by decide, by decide⟩,
    cache_hit_avoids_reinvocation (⟨[], false⟩ : Backend Nat) "demo:42" 42
      (Except.ok 99) 5 0 1 rfl rfl (by decide) (by decide)⟩

/-- C2: with no cache backend the helper is a pure pass-through — it
returns exactly the producer's outcome (so it fails exactly when the
producer fails) and invokes it once; and in the `/watch` route, when the
redis handle is absent, the handler calls the scraper directly and sends
its successful result unchanged with status 200 (a failure reaches the
catch block and becomes a 500). -/
theorem no_backend_pass_through :
    (∀ (ε α : Type) (k : String) (p : Except ε α) (ttl now : Nat),
        cacheFetch none k p ttl now = ⟨p, none, 1⟩) ∧
    (∀ (α : Type) (eid : String) (v : α) (ttl now : Nat),
        watchHandler none (some eid) (Except.ok v) ttl now =
          ⟨200, RouteBody.payload v, 1, none⟩) ∧
    (∀ (α : Type) (eid err : String) (ttl now : Nat),
        watchHandler (α := α) none (some eid) (Except.error err) ttl now =
          ⟨500,
            RouteBody.failure
              "Something went wrong. Contact developer for help." err,
            1, none⟩) :=
  ⟨fun _ _ _ _ _ _ => rfl, fun _ _ _ _ _ => rfl, fun _ _ _ _ _ => rfl⟩

/-- C3: a failing producer's error is propagated verbatim and the cache
state is left untouched, so a later call with the same key (the entry
still being absent or expired) invokes the producer again instead of
serving a cached failure. -/
theorem producer_failure_not_cached {ε α : Type} (b : Backend α)
    (k : String) (e : ε) (p₂ : Except ε α) (ttl now₁ now₂ : Nat)
    (hmiss : ∀ v, backendRead b k now₁ ≠ ReadResult.hit v)
    (hseq : now₁ ≤ now₂) :
    cacheFetch (some b) k (Except.error e) ttl now₁ =
      ⟨Except.error e, some b, 1⟩ ∧
    (cacheFetch (some b) k p₂ ttl now₂).producerCalls = 1 := by
  constructor
  · cases hr : backendRead b k now₁ with
    | hit v => exact absurd hr (hmiss v)
    | miss => simp [cacheFetch, hr]
    | failed => simp [cacheFetch, hr]
  · exact cacheFetch_calls_of_not_hit b k p₂ ttl now₂
      (backendRead_not_hit_later b k now₁ now₂ hseq hmiss)

/-- Closed instance of `producer_failure_not_cached` on an empty store:
the failure `"boom"` is propagated, nothing is written, and the call one
second later (well within the TTL of 5) invokes its producer again. -/
theorem producer_failure_not_cached_witness :
    ((∀ v : Nat, backendRead (⟨[], false⟩ : Backend Nat) "demo:42" 0 ≠
        ReadResult.hit v) ∧ 0 ≤ 1) ∧
    (cacheFetch (some (⟨[], false⟩ : Backend Nat)) "demo:42"
        (Except.error "boom") 5 0 =
      ⟨Except.error "boom", some (⟨[], false⟩ : Backend Nat), 1⟩ ∧
      (cacheFetch (some (⟨[], false⟩ : Backend Nat)) "demo:42"
          (Except.ok (ε := String) 7) 5 1).producerCalls = 1) :=
  ⟨⟨fun v h => by simp [backendRead, lookupEntry] at h, by decide⟩,
    producer_failure_not_cached (⟨[], false⟩ : Backend Nat) "demo:42"
      "boom" (Except.ok 7) 5 0 1
      (fun v h => by simp [backendRead, lookupEntry] at h) (by decide)⟩

/-- C4: an entry written with TTL `ttl` at time `now₁` is expired for any
call at `now₂ ≥ now₁ + ttl`: that call invokes the producer again, returns
the new value, and overwrites the entry (new value, TTL re-armed from
`now₂`). -/
theorem ttl_expiry_reinvokes {α : Type} (b : Backend α) (k : String)
    (v₁ v₂ : α) (ttl now₁ now₂ : Nat)
    (hb : b.readFails = false)
    (hcold : lookupEntry b.store k = none)
    (hexp : now₁ + ttl ≤ now₂) :
    (cacheFetch
        (cacheFetch (some b) k (Except.ok (ε := String) v₁) ttl now₁).backend
        k (Except.ok (ε := String) v₂) ttl now₂).producerCalls = 1 ∧
    (cacheFetch
        (cacheFetch (some b) k (Except.ok (ε := String) v₁) ttl now₁).backend
        k (Except.ok (ε := String) v₂) ttl now₂).result = Except.ok v₂ ∧
    ∃ b₂,
      (cacheFetch
          (cacheFetch (some b) k (Except.ok (ε := String) v₁) ttl now₁).backend
          k (Except.ok (ε := String) v₂) ttl now₂).backend = some b₂ ∧
      lookupEntry b₂.store k = some (v₂, now₂ + ttl) := by
  have hread₁ : backendRead b k now₁ = ReadResult.miss := by
    simp [backendRead, hb, hcold]
  have hout₁ : cacheFetch (some b) k (Except.ok (ε := String) v₁) ttl now₁ =
      ⟨Except.ok v₁, some (backendWrite b k v₁ ttl now₁), 1⟩ := by
    simp [cacheFetch, hread₁]
  have hstale : ¬ now₂ < now₁ + ttl := fun hlt => absurd hexp (not_le.mpr hlt)
  have hread₂ : backendRead (backendWrite b k v₁ ttl now₁) k now₂ =
      ReadResult.miss := by
    simp [backendRead, backendWrite, hb, lookupEntry, hstale]
  rw [hout₁]
  refine ⟨by simp [cacheFetch, hread₂], by simp [cacheFetch, hread₂], ?_⟩
  refine ⟨backendWrite (backendWrite b k v₁ ttl now₁) k v₂ ttl now₂,
    by simp [cacheFetch, hread₂], ?_⟩
  simp [backendWrite, lookupEntry]

/-- Closed instance of `ttl_expiry_reinvokes`: the spec's §8 scenario
tail — a write at time 0 with TTL 5, then the call at time 6 re-invokes
the producer and the store then holds `99` expiring at 11. -/
theorem ttl_expiry_reinvokes_witness :
    ((⟨[], false⟩ : Backend Nat).readFails = false ∧
      lookupEntry (⟨[], false⟩ : Backend Nat).store "demo:42" = none ∧
      0 + 5 ≤ 6) ∧
    ((cacheFetch
        (cacheFetch (some (⟨[], false⟩ : Backend Nat)) "demo:42"
          (Except.ok (ε := String) 42) 5 0).backend
        "demo:42" (Except.ok (ε := String) 99) 5 6).producerCalls = 1 ∧
      (cacheFetch
          (cacheFetch (some (⟨[], false⟩ : Backend Nat)) "demo:42"
            (Except.ok (ε := String) 42) 5 0).backend
          "demo:42" (Except.ok (ε := String) 99) 5 6).result = Except.ok 99 ∧
      ∃ b₂,
        (cacheFetch
            (cacheFetch (some (⟨[], false⟩ : Backend Nat)) "demo:42"
              (Except.ok (ε := String) 42) 5 0).backend
            "demo:42" (Except.ok (ε := String) 99) 5 6).backend = some b₂ ∧
        lookupEntry b₂.store "demo:42" = some (99, 6 + 5)) :=
  ⟨⟨rfl, rfl, by decide⟩,
    ttl_expiry_reinvokes (⟨[], false⟩ : Backend Nat) "demo:42" 42 99 5 0 6
      rfl rfl (by decide)⟩

/-- C5: a single call to the helper invokes the producer at most once, on
every path — hit (0 invocations), miss, producer failure, backend failure,
or no backend (1 invocation each). -/
theorem producer_at_most_once_per_call {ε α : Type}
    (backend : Option (Backend α)) (k : String) (p : Except ε α)
    (ttl now : Nat) :
    (cacheFetch backend k p ttl now).producerCalls ≤ 1 := by
  cases backend with
  | none => simp [cacheFetch]
  | some b =>
    cases hr : backendRead b k now with
    | hit v => simp [cacheFetch, hr]
    | miss => cases p <;> simp [cacheFetch, hr]
    | failed => cases p <;> simp [cacheFetch, hr]

/-- C6: when the backend read throws, the helper treats it as a miss
(fail-open): the producer is still invoked once and its outcome — success
or failure — is what the call returns; the backend error never becomes the
overall failure of the call. -/
theorem backend_read_failure_fail_open {ε α : Type} (st : Store α)
    (k : String) (p : Except ε α) (ttl now : Nat) :
    (cacheFetch (some ⟨st, true⟩) k p ttl now).result = p ∧
    (cacheFetch (some ⟨st, true⟩) k p ttl now).producerCalls = 1 := by
  have hread : backendRead (⟨st, true⟩ : Backend α) k now = ReadResult.failed := rfl
  cases p <;> simp [cacheFetch, hread]

/-! ## Claims about the routes (C7–C10) -/

/-- C7: every cache key built by a route module is
`<provider>:<operation>:<params>` — its first colon-separated component is
the provider name and its second is the operation name, for all thirteen
`cache.fetch` call sites. -/
theorem cache_keys_provider_operation_format :
    (∀ e : String, ∃ rest,
        splitOnChar ':' (allmangaWatchKey e).data =
          "allmanga".data :: "watch".data :: rest) ∧
    (∀ q p : String, ∃ rest,
        splitOnChar ':' (kickassanimeSearchKey q p).data =
          "kickassanime".data :: "search".data :: rest) ∧
    (∀ i : String, ∃ rest,
        splitOnChar ':' (kickassanimeInfoKey i).data =
          "kickassanime".data :: "info".data :: rest) ∧
    (∀ (e : String) (sv : Option String), ∃ rest,
        splitOnChar ':' (kickassanimeWatchKey e sv).data =
          "kickassanime".data :: "watch".data :: rest) ∧
    (∀ e : String, ∃ rest,
        splitOnChar ':' (kickassanimeServersKey e).data =
          "kickassanime".data :: "servers".data :: rest) ∧
    (∀ q : String, ∃ rest,
        splitOnChar ':' (anizoneSearchKey q).data =
          "anizone".data :: "search".data :: rest) ∧
    (∀ i : String, ∃ rest,
        splitOnChar ':' (anizoneInfoKey i).data =
          "anizone".data :: "info".data :: rest) ∧
    (∀ e : String, ∃ rest,
        splitOnChar ':' (anizoneWatchKey e).data =
          "anizone".data :: "watch".data :: rest) ∧
    (∀ q : String, ∃ rest,
        splitOnChar ':' (animepaheSearchKey q).data =
          "animepahe".data :: "search".data :: rest) ∧
    (∀ p : String, ∃ rest,
        splitOnChar ':' (animepaheRecentEpisodesKey p).data =
          "animepahe".data :: "recent-episodes".data :: rest) ∧
    (∀ i p : String, ∃ rest,
        splitOnChar ':' (animepaheInfoKey i p).data =
          "animepahe".data :: "info".data :: rest) ∧
    (∀ e : String, ∃ rest,
        splitOnChar ':' (animepaheWatchKey e).data =
          "animepahe".data :: "watch".data :: rest) ∧
    (∀ e : String, ∃ rest,
        splitOnChar ':' (animeyyWatchKey e).data =
          "animeyy".data :: "watch".data :: rest) := by
  refine ⟨?_, ?_, ?_, ?_, ?_, ?_, ?_, ?_, ?_, ?_, ?_, ?_, ?_⟩
  · intro e
    refine keyFormat_concat "allmanga" "watch" e.data _ ?_ (by decide) (by decide)
    simp only [allmangaWatchKey, String.data_append, List.append_assoc]
    rfl
  · intro q p
    refine keyFormat_concat "kickassanime" "search"
      (q.data ++ ':' :: p.data) _ ?_ (by decide) (by decide)
    simp only [kickassanimeSearchKey, String.data_append, List.append_assoc]
    rfl
  · intro i
    refine keyFormat_concat "kickassanime" "info" i.data _ ?_
      (by decide) (by decide)
    simp only [kickassanimeInfoKey, String.data_append, List.append_assoc]
    rfl
  · intro e sv
    refine keyFormat_concat "kickassanime" "watch"
      (e.data ++ ':' :: (sv.getD "default").data) _ ?_ (by decide) (by decide)
    simp only [kickassanimeWatchKey, String.data_append, List.append_assoc]
    rfl
  · intro e
    refine keyFormat_concat "kickassanime" "servers" e.data _ ?_
      (by decide) (by decide)
    simp only [kickassanimeServersKey, String.data_append, List.append_assoc]
    rfl
  · intro q
    refine keyFormat_concat "anizone" "search" q.data _ ?_
      (by decide) (by decide)
    simp only [anizoneSearchKey, String.data_append, List.append_assoc]
    rfl
  · intro i
    refine keyFormat_concat "anizone" "info" i.data _ ?_
      (by decide) (by decide)
    simp only [anizoneInfoKey, String.data_append, List.append_assoc]
    rfl
  · intro e
    refine keyFormat_concat "anizone" "watch" e.data _ ?_
      (by decide) (by decide)
    simp only [anizoneWatchKey, String.data_append, List.append_assoc]
    rfl
  · intro q
    refine keyFormat_concat "animepahe" "search" q.data _ ?_
      (by decide) (by decide)
    simp only [animepaheSearchKey, String.data_append, List.append_assoc]
    rfl
  · intro p
    refine keyFormat_concat "animepahe" "recent-episodes" p.data _ ?_
      (by decide) (by decide)
    simp only [animepaheRecentEpisodesKey, String.data_append, List.append_assoc]
    rfl
  · intro i p
    refine keyFormat_concat "animepahe" "info" (i.data ++ ':' :: p.data) _ ?_
      (by decide) (by decide)
    simp only [animepaheInfoKey, String.data_append, List.append_assoc]
    rfl
  · intro e
    refine keyFormat_concat "animepahe" "watch" e.data _ ?_
      (by decide) (by decide)
    simp only [animepaheWatchKey, String.data_append, List.append_assoc]
    rfl
  · intro e
    refine keyFormat_concat "animeyy" "watch" e.data _ ?_
      (by decide) (by decide)
    simp only [animeyyWatchKey, String.data_append, List.append_assoc]
    rfl

/-- C8: a `/watch` request with no `episodeId` query parameter is answered
with status 400 and body `{message: 'episodeId is required'}`; the scraper
is not invoked (zero producer calls) and the cache backend is left exactly
as it was — in the cached handler for any backend state, and in the
cacheless `animeyy.ts` handler. -/
theorem missing_episode_id_guard :
    (∀ (α : Type) (redis : Option (Backend α)) (p : Except String α)
        (ttl now : Nat),
        watchHandler redis none p ttl now =
          ⟨400, RouteBody.message "episodeId is required", 0, redis⟩) ∧
    (∀ (α : Type) (p : Except String α),
        watchHandlerYY none p =
          ⟨400, RouteBody.message "episodeId is required", 0, none⟩) :=
  ⟨fun _ _ _ _ _ => rfl, fun _ _ => rfl⟩

/-- C9 counterexample: in `animeyy.ts` the `/embed/` → `/anime/` rewrite is
applied after the url-keyed dedup, so two sources that were distinct when
deduplicated (`…/embed/x.m3u8` and `…/anime/x.m3u8`) end up as two entries
with the same url in the returned `sources` array. -/
theorem dedup_rewrite_counterexample :
    ((buildResultYY
        [⟨"https://animeyy.com/embed/x.m3u8", "auto", true, none⟩,
         ⟨"https://animeyy.com/anime/x.m3u8", "auto", true, none⟩]
        none).sources.map (fun s => s.url) =
      ["https://animeyy.com/anime/x.m3u8", "https://animeyy.com/anime/x.m3u8"]) ∧
    ¬ ((buildResultYY
        [⟨"https://animeyy.com/embed/x.m3u8", "auto", true, none⟩,
         ⟨"https://animeyy.com/anime/x.m3u8", "auto", true, none⟩]
        none).sources.map (fun s => s.url)).Nodup := by
  constructor
  · decide
  · decide

/-- C9 amended: the url-keyed `Map` dedup does produce an array with
pairwise-distinct urls, and in the module variants without the `/embed/`
rewrite (allmanga axios variant, cached animeyy variant) the returned
`sources` array therefore contains no two entries with equal urls (the
iframe fallback entry is only added when that array is empty); in
`animeyy.ts` the guarantee holds for the deduplicated array before the
`/embed/` → `/anime/` rewrite, which may reintroduce equal urls. -/
theorem dedup_no_duplicate_urls :
    (∀ (sources : List MSource) (iframeSrc : Option String),
        (((buildResult sources iframeSrc).sources.map (fun s => s.url)).Nodup)) ∧
    (∀ sources : List MSource,
        ((dedupByUrl sources).map (fun s => s.url)).Nodup) := by
  refine ⟨?_, dedupByUrl_nodup⟩
  intro ss ifr
  unfold buildResult
  cases ifr with
  | none => simpa using dedupByUrl_nodup ss
  | some src =>
    by_cases h : (dedupByUrl ss).length = 0
    · rw [List.length_eq_zero] at h
      simp [h]
    · simpa [h] using dedupByUrl_nodup ss

/-- C10: in every `fetchEpisodeSources` variant the `download` field is the
url of the first element of the returned `sources` array when that array
is non-empty, and `null` when it is empty. -/
theorem download_first_source_url :
    (∀ (sources : List MSource) (iframeSrc : Option String),
        (buildResult sources iframeSrc).download =
          ((buildResult sources iframeSrc).sources.head?).map (fun s => s.url)) ∧
    (∀ (sources : List MSource) (iframeSrc : Option String),
        (buildResultYY sources iframeSrc).download =
          ((buildResultYY sources iframeSrc).sources.head?).map (fun s => s.url)) := by
  constructor
  · intro ss ifr
    unfold buildResult
    exact downloadSpec _
  · intro ss ifr
    unfold buildResultYY
    exact downloadSpec _

end Cosmunet
